import Mathlib

/-!
Verification development for the `racf_audit` cog (src/racf_audit/racf_audit.py).

The development shallowly embeds the audit-related data model and operations:
clan / member records, the JSON clan cache keyed by clan tag, the
fetch-or-fallback roster loader `family_member_models`, the Discord-tag
identity resolution `tag_to_member`, and the member-processing loop of the
`racfaudit run` command.  External collaborators (the crapipy API models and
the discord.py server objects) are embedded as plain records, following the
spec's data-model section where their internals are not part of the
repository.
-/

namespace RacfAudit

/-- In-game clan role of a member.  Modelled from the spec: the crapipy
member model's clan-role enumeration (member / elder / co-leader / leader),
which `racf_audit.py` consumes through the `role_is_*` flags. -/
inductive ClanRole where
  | member
  | elder
  | coLeader
  | leader
deriving DecidableEq, Repr

/-- Serialization of a clan role to its API string form. -/
def roleToString : ClanRole → String
  | ClanRole.member => "member"
  | ClanRole.elder => "elder"
  | ClanRole.coLeader => "coLeader"
  | ClanRole.leader => "leader"

/-- Deserialization of a clan role from its API string form; unknown
strings default to `member` (the attribute-bag models do not validate). -/
def roleOfString (s : String) : ClanRole :=
  if s = "elder" then ClanRole.elder
  else if s = "coLeader" then ClanRole.coLeader
  else if s = "leader" then ClanRole.leader
  else ClanRole.member

/-- A member record as fetched from the API (crapipy member model, the
fields `racf_audit.py` reads: tag, name, role, trophies). -/
structure MemberModel where
  tag : String
  name : String
  role : ClanRole
  trophies : Nat
deriving DecidableEq, Repr

/-- `member_model.role_is_elder` flag of the crapipy member model. -/
def MemberModel.role_is_elder (m : MemberModel) : Bool :=
  m.role = ClanRole.elder

/-- `member_model.role_is_coleader` flag of the crapipy member model. -/
def MemberModel.role_is_coleader (m : MemberModel) : Bool :=
  m.role = ClanRole.coLeader

/-- A clan record as fetched from the API (crapipy clan model, the fields
`racf_audit.py` reads: tag, name and the ordered member list). -/
structure ClanModel where
  tag : String
  name : String
  members : List MemberModel
deriving DecidableEq, Repr

/-- JSON-like values, the content of one cache file. -/
inductive JValue where
  | str : String → JValue
  | nat : Nat → JValue
  | arr : List JValue → JValue
  | obj : List (String × JValue) → JValue

/-- First value stored under a key in a JSON object body. -/
def jlookup : List (String × JValue) → String → Option JValue
  | [], _ => none
  | kv :: rest, k => if kv.fst = k then some kv.snd else jlookup rest k

/-- Read a string field out of an optional JSON value, defaulting to "". -/
def getStr : Option JValue → String
  | some (JValue.str s) => s
  | _ => ""

/-- Read a numeric field out of an optional JSON value, defaulting to 0. -/
def getNat : Option JValue → Nat
  | some (JValue.nat n) => n
  | _ => 0

/-- Modelled from the spec: crapipy `to_dict` serialization of a member
record into the API-native JSON shape stored in a cache file. -/
def MemberModel.to_dict (m : MemberModel) : JValue :=
  JValue.obj
    [("tag", JValue.str m.tag),
     ("name", JValue.str m.name),
     ("role", JValue.str (roleToString m.role)),
     ("trophies", JValue.nat m.trophies)]

/-- Modelled from the spec: crapipy member-model construction from a cached
JSON value (an attribute bag exposing the stored fields). -/
def MemberModel.of_dict (j : JValue) : MemberModel :=
  match j with
  | JValue.obj kvs =>
    { tag := getStr (jlookup kvs "tag"),
      name := getStr (jlookup kvs "name"),
      role := roleOfString (getStr (jlookup kvs "role")),
      trophies := getNat (jlookup kvs "trophies") }
  | _ => { tag := "", name := "", role := ClanRole.member, trophies := 0 }

/-- Read a member list out of an optional JSON value. -/
def getMembers : Option JValue → List MemberModel
  | some (JValue.arr l) => l.map MemberModel.of_dict
  | _ => []

/-- Modelled from the spec: crapipy `Clan.to_dict`, the value written by
`save_to_cache` for one clan (API-native shape, spec section 6). -/
def ClanModel.to_dict (c : ClanModel) : JValue :=
  JValue.obj
    [("tag", JValue.str c.tag),
     ("name", JValue.str c.name),
     ("members", JValue.arr (c.members.map MemberModel.to_dict))]

/-- Modelled from the spec: `crapipy.models.Clan(...)` construction from a
cached JSON value, as done by `load_from_cache`. -/
def ClanModel.of_dict (j : JValue) : ClanModel :=
  match j with
  | JValue.obj kvs =>
    { tag := getStr (jlookup kvs "tag"),
      name := getStr (jlookup kvs "name"),
      members := getMembers (jlookup kvs "members") }
  | _ => { tag := "", name := "", members := [] }

/-- The on-disk clan cache: one JSON file per clan tag under
`data/racf_audit/clans/<tag>.json` (`cache_file_path`), modelled as a map
from clan tag to the stored JSON value (`none` = no such file). -/
def Cache : Type := String → Option JValue

/-- `dataIO.save_json(self.cache_file_path(tag), d)`: write one cache file. -/
def save_json (cache : Cache) (tag : String) (d : JValue) : Cache :=
  fun t => if t = tag then some d else cache t

/-- `RACFAudit.save_to_cache`: save each clan model to its cache file, in
list order. -/
def save_to_cache (clan_models : List ClanModel) (cache : Cache) : Cache :=
  match clan_models with
  | [] => cache
  | clan_model :: rest => save_to_cache rest (save_json cache clan_model.tag clan_model.to_dict)

/-- `os.path.getmtime(fp)` on a cache file path: returns a timestamp, and
raises `FileNotFoundError` when the file does not exist. -/
def getmtime (cache : Cache) (tag : String) : Except String Nat :=
  match cache tag with
  | some _ => Except.ok 0
  | none => Except.error ("FileNotFoundError: " ++ tag)

/-- `dataIO.load_json(fp)` on a cache file path: returns the stored JSON,
and raises `FileNotFoundError` when the file does not exist. -/
def load_json (cache : Cache) (tag : String) : Except String JValue :=
  match cache tag with
  | some d => Except.ok d
  | none => Except.error ("FileNotFoundError: " ++ tag)

/-- The loop body of `RACFAudit.load_from_cache`: `fp_timestamp` starts as
`None` and is set from `os.path.getmtime` on the first iteration, so a
missing cache file raises there; `dataIO.load_json` raises on any missing
file; otherwise the loaded dict is wrapped into a clan model and appended. -/
def load_from_cache_loop (cache : Cache) (fp_timestamp : Option Nat) :
    List String → Except String (List ClanModel)
  | [] => Except.ok []
  | clan_tag :: rest =>
    let ts : Except String Nat :=
      match fp_timestamp with
      | none => getmtime cache clan_tag
      | some t => Except.ok t
    match ts with
    | Except.error e => Except.error e
    | Except.ok t =>
      match load_json cache clan_tag with
      | Except.error e => Except.error e
      | Except.ok d =>
        match load_from_cache_loop cache (some t) rest with
        | Except.error e => Except.error e
        | Except.ok models => Except.ok (ClanModel.of_dict d :: models)

/-- `RACFAudit.load_from_cache`: load the clan models for the given tags
from the cache, in tag order. -/
def load_from_cache (cache : Cache) (clan_tags : List String) :
    Except String (List ClanModel) :=
  load_from_cache_loop cache none clan_tags

/-- A chat-server role object (discord.py `Role`): roles compare by object
identity, so a name alone does not identify a role; `rid` is the id. -/
structure Role where
  name : String
  rid : Nat
deriving DecidableEq, Repr

/-- A chat-server member (discord.py `Member`): an id and the list of role
objects the member currently holds. -/
structure DiscordMember where
  did : Nat
  roles : List Role
deriving DecidableEq, Repr

/-- A chat server (discord.py `Server`): the list of its role objects. -/
structure Server where
  roles : List Role
deriving DecidableEq, Repr

/-- `server_role`: `discord.utils.get(server.roles, name=role_name)`, the
first server role with the given name, or `None`. -/
def server_role (server : Server) (role_name : String) : Option Role :=
  server.roles.find? (fun r => r.name == role_name)

/-- `member_has_role`: looks the role up by name on the server and tests
membership in the member's role list (`None in member.roles` is `False`,
since the role list holds only role objects). -/
def member_has_role (server : Server) (member : DiscordMember) (role_name : String) : Bool :=
  match server_role server role_name with
  | some role => decide (role ∈ member.roles)
  | none => false

/-- `DiscordUser`: one chat-identity-to-game-tag association. -/
structure DiscordUser where
  user : DiscordMember
  tag : String
deriving DecidableEq, Repr

/-- `DiscordUsers.tag_to_member`: scan the association table in order and
return the chat identity of the first association whose tag matches, or
`None` when no association matches. -/
def tag_to_member : List DiscordUser → String → Option DiscordMember
  | [], _ => none
  | u :: rest, tag => if u.tag = tag then some u.user else tag_to_member rest tag

/-- One entry of `family_config.yaml` under `clans`: name, tag, the name of
the associated chat role, and the membership type. -/
structure ClanConf where
  name : String
  tag : String
  role_name : String
  membership_type : String
deriving DecidableEq, Repr

/-- `RACFClan` as built by `RACFAudit.clans`: the configured name and tag
together with the resolved server role (`server_role` may return `None`). -/
structure RACFClan where
  name : String
  tag : String
  role : Option Role
  membership_type : String
deriving DecidableEq, Repr

/-- `RACFAudit.clans`: one `RACFClan` per configured clan, resolving the
configured role name against the server. -/
def clans (config : List ClanConf) (server : Server) : List RACFClan :=
  config.map (fun clan =>
    { name := clan.name,
      tag := clan.tag,
      role := server_role server clan.role_name,
      membership_type := clan.membership_type })

/-- `RACFAudit.clan_name_to_role`: the resolved role of the first
configured clan with the given name (`None` when no clan matches, or when
the matching clan's role did not resolve). -/
def clan_name_to_role : List RACFClan → String → Option Role
  | [], _ => none
  | clan :: rest, clan_name =>
    if clan.name = clan_name then clan.role else clan_name_to_role rest clan_name

/-- `MemberAudit.discord_clan_roles`: the clan roles (among the configured
clans) that the resolved chat member currently holds. -/
def discord_clan_roles (cs : List RACFClan) (member : DiscordMember) : List Role :=
  cs.filterMap (fun c =>
    match c.role with
    | some r => if r ∈ member.roles then some r else none
    | none => none)

/-- A member model as consumed by the audit loop: the API member record
augmented with its owning clan's name (`member_model.clan = clan_model` is
set by `family_member_models`, and the loop reads `member_model.clan_name`). -/
structure AuditMember where
  model : MemberModel
  clan_name : String
deriving DecidableEq, Repr

/-- `member_model.tag` accessor. -/
def AuditMember.tag (m : AuditMember) : String := m.model.tag

/-- `MemberAudit.api_is_elder` = `member_model.role_is_elder`. -/
def AuditMember.role_is_elder (m : AuditMember) : Bool := m.model.role_is_elder

/-- `MemberAudit.api_is_coleader` = `member_model.role_is_coleader`. -/
def AuditMember.role_is_coleader (m : AuditMember) : Bool := m.model.role_is_coleader

/-- The member-flattening loop of `family_member_models`: for each clan
model, each of its members is tagged with its owning clan and appended, in
clan order then member order. -/
def flatten_members : List ClanModel → List AuditMember
  | [] => []
  | clan_model :: rest =>
    clan_model.members.map (fun m => { model := m, clan_name := clan_model.name })
      ++ flatten_members rest

/-- `RACFAudit.family_member_models`: try the live API fetch
(`family_clan_models`); on `crapipy.APIError` fall back to the cache
(`family_clan_models_from_cache`, whose `FileNotFoundError` is not caught
and propagates); flatten the clan models into one member list and return it
together with the `is_cache` flag. -/
def family_member_models (api_result : Except Unit (List ClanModel)) (cache : Cache)
    (clan_tags : List String) : Except String (List AuditMember × Bool) :=
  match api_result with
  | Except.ok clan_models => Except.ok (flatten_members clan_models, false)
  | Except.error _ =>
    match load_from_cache cache clan_tags with
    | Except.error e => Except.error e
    | Except.ok clan_models => Except.ok (flatten_members clan_models, true)

/-- The four discrepancy-category lists of the audit report, the shape of
the `clan_defaults` dict in `racfaudit_run`. -/
structure ClanOut where
  elder_promotion_req : List AuditMember
  coleader_promotion_req : List AuditMember
  no_discord : List AuditMember
  no_clan_role : List AuditMember
deriving DecidableEq, Repr

/-- The four category keys of `clan_defaults`. -/
inductive AuditField where
  | elder_promotion_req
  | coleader_promotion_req
  | no_discord
  | no_clan_role
deriving DecidableEq, Repr

/-- Append a member to one category list. -/
def ClanOut.push (co : ClanOut) (field : AuditField) (m : AuditMember) : ClanOut :=
  match field with
  | AuditField.elder_promotion_req => { co with elder_promotion_req := co.elder_promotion_req ++ [m] }
  | AuditField.coleader_promotion_req => { co with coleader_promotion_req := co.coleader_promotion_req ++ [m] }
  | AuditField.no_discord => { co with no_discord := co.no_discord ++ [m] }
  | AuditField.no_clan_role => { co with no_clan_role := co.no_clan_role ++ [m] }

/-- The `clans_out` ordered dict of `racfaudit_run`.  In the source,
`clans_out = OrderedDict([(c.name, clan_defaults) for c in clans])` binds
every clan name to the one `clan_defaults` dict object created at line 577,
so all keys alias a single shared set of category lists; the embedding
records the key list and that single shared value. -/
structure ClansOut where
  clan_names : List String
  shared : ClanOut
deriving DecidableEq, Repr

/-- Dict lookup `clans_out[clan_name]`: every present key yields the same
shared dict object; an absent key is a `KeyError`. -/
def ClansOut.get (st : ClansOut) (clan_name : String) : Option ClanOut :=
  if clan_name ∈ st.clan_names then some st.shared else none

/-- `update_clan(clan_name, field, member_model)`:
`clans_out[clan_name][field].append(member_model)`.  A clan name that is
not a key raises `KeyError`; otherwise the append mutates the shared
`clan_defaults` lists. -/
def update_clan (st : ClansOut) (clan_name : String) (field : AuditField)
    (m : AuditMember) : Except String ClansOut :=
  if clan_name ∈ st.clan_names then
    Except.ok { st with shared := st.shared.push field m }
  else
    Except.error ("KeyError: " ++ clan_name)

/-- The initial `clans_out`: one key per configured clan name, all mapping
to the single empty `clan_defaults`. -/
def init_clans_out (cs : List RACFClan) : ClansOut :=
  { clan_names := cs.map (fun c => c.name),
    shared := { elder_promotion_req := [], coleader_promotion_req := [],
                no_discord := [], no_clan_role := [] } }

/-- The elder check of the loop body (lines 597-599):
`if not ma.api_is_elder and ma.discord_role_elder:` append the member under
`elder_promotion_req` for its clan name. -/
def step_elder (server : Server) (dm : DiscordMember) (st : ClansOut)
    (m : AuditMember) : Except String ClansOut :=
  if !m.role_is_elder && member_has_role server dm "Elder" then
    update_clan st m.clan_name AuditField.elder_promotion_req m
  else Except.ok st

/-- The co-leader check of the loop body (lines 600-602):
`if not ma.api_is_coleader and ma.discord_role_coleader:` append the member
under `coleader_promotion_req` for its clan name. -/
def step_coleader (server : Server) (dm : DiscordMember) (st : ClansOut)
    (m : AuditMember) : Except String ClansOut :=
  if !m.role_is_coleader && member_has_role server dm "Co-Leader" then
    update_clan st m.clan_name AuditField.coleader_promotion_req m
  else Except.ok st

/-- The clan-role check of the loop body (lines 603-607): resolve the chat
role for the member's clan; when it resolves and the chat identity does
not hold it, append the member under `no_clan_role`. -/
def step_clan_role (cs : List RACFClan) (dm : DiscordMember) (st : ClansOut)
    (m : AuditMember) : Except String ClansOut :=
  match clan_name_to_role cs m.clan_name with
  | none => Except.ok st
  | some clan_role =>
    if clan_role ∈ discord_clan_roles cs dm then Except.ok st
    else update_clan st m.clan_name AuditField.no_clan_role m

/-- The body of the member-processing loop of `racfaudit_run` (lines
589-610) for one member: the member's chat identity was set beforehand via
`discord_users.tag_to_member(member_model.tag)`; with an identity, the
elder check, the co-leader check and the clan-role check run in order;
without one, the member is appended under `no_discord`. -/
def audit_step (cs : List RACFClan) (server : Server) (du : List DiscordUser)
    (st : ClansOut) (m : AuditMember) : Except String ClansOut :=
  match tag_to_member du m.tag with
  | none => update_clan st m.clan_name AuditField.no_discord m
  | some dm =>
    match step_elder server dm st m with
    | Except.error e => Except.error e
    | Except.ok st1 =>
      match step_coleader server dm st1 m with
      | Except.error e => Except.error e
      | Except.ok st2 => step_clan_role cs dm st2 m

/-- The member-processing loop of `racfaudit_run` over a member list. -/
def racfaudit_loop (cs : List RACFClan) (server : Server) (du : List DiscordUser) :
    ClansOut → List AuditMember → Except String ClansOut
  | st, [] => Except.ok st
  | st, m :: rest =>
    match audit_step cs server du st m with
    | Except.error e => Except.error e
    | Except.ok st1 => racfaudit_loop cs server du st1 rest

/-- The audit engine: the processing loop started on the initial
`clans_out` built from the configured clans. -/
def audit_members (cs : List RACFClan) (server : Server) (du : List DiscordUser)
    (member_models : List AuditMember) : Except String ClansOut :=
  racfaudit_loop cs server du (init_clans_out cs) member_models

/-- The `elder_promotion_req` condition for one member, as a function of
the member (`not ma.api_is_elder and ma.discord_role_elder`, guarded by
`ma.has_discord`). -/
def flag_elder_promotion_req (server : Server) (du : List DiscordUser)
    (m : AuditMember) : Bool :=
  match tag_to_member du m.tag with
  | some dm => !m.role_is_elder && member_has_role server dm "Elder"
  | none => false

/-- The `coleader_promotion_req` condition for one member. -/
def flag_coleader_promotion_req (server : Server) (du : List DiscordUser)
    (m : AuditMember) : Bool :=
  match tag_to_member du m.tag with
  | some dm => !m.role_is_coleader && member_has_role server dm "Co-Leader"
  | none => false

/-- The `no_discord` condition for one member. -/
def flag_no_discord (du : List DiscordUser) (m : AuditMember) : Bool :=
  (tag_to_member du m.tag).isNone

/-- The `no_clan_role` condition for one member. -/
def flag_no_clan_role (cs : List RACFClan) (du : List DiscordUser)
    (m : AuditMember) : Bool :=
  match tag_to_member du m.tag with
  | some dm =>
    match clan_name_to_role cs m.clan_name with
    | some clan_role => !(decide (clan_role ∈ discord_clan_roles cs dm))
    | none => false
  | none => false

/-- The state `clans_out` reaches after the successful processing of one
member: each category list is extended by the member exactly when that
category's condition holds. -/
def apply_flags (cs : List RACFClan) (server : Server) (du : List DiscordUser)
    (st : ClansOut) (m : AuditMember) : ClansOut :=
  { clan_names := st.clan_names,
    shared :=
      { elder_promotion_req := st.shared.elder_promotion_req
          ++ (if flag_elder_promotion_req server du m then [m] else []),
        coleader_promotion_req := st.shared.coleader_promotion_req
          ++ (if flag_coleader_promotion_req server du m then [m] else []),
        no_discord := st.shared.no_discord
          ++ (if flag_no_discord du m then [m] else []),
        no_clan_role := st.shared.no_clan_role
          ++ (if flag_no_clan_role cs du m then [m] else []) } }

/-- An element of the pair iterated over by `racfaudit_run`: the command
binds `member_models = await self.family_member_models(server)` without
unpacking, so the iterated values are the member list itself and the
`is_cache` flag, not individual members. -/
inductive RunIterObj where
  | members : List AuditMember → RunIterObj
  | cacheFlag : Bool → RunIterObj

/-- Iterating over the two-element tuple `(members, is_cache)`. -/
def run_tuple_elements (pair : List AuditMember × Bool) : List RunIterObj :=
  [RunIterObj.members pair.fst, RunIterObj.cacheFlag pair.snd]

/-- Python attribute access `.tag` on an element of the iterated tuple:
neither a list nor a bool has a `tag` attribute, so both raise
`AttributeError`. -/
def getattr_tag : RunIterObj → Except String String
  | RunIterObj.members _ => Except.error "AttributeError: list object has no attribute tag"
  | RunIterObj.cacheFlag _ => Except.error "AttributeError: bool object has no attribute tag"

/-- Python attribute access `.clan_name` on an element of the iterated
tuple, likewise an `AttributeError`. -/
def getattr_clan_name : RunIterObj → Except String String
  | RunIterObj.members _ => Except.error "AttributeError: list object has no attribute clan_name"
  | RunIterObj.cacheFlag _ => Except.error "AttributeError: bool object has no attribute clan_name"

/-- The association loop of `racfaudit_run` (lines 566-567), iterating the
unpacked-less `member_models` value: each iteration reads
`member_model.tag` first. -/
def assoc_loop (du : List DiscordUser) : List RunIterObj → Except String Unit
  | [] => Except.ok ()
  | x :: rest =>
    match getattr_tag x with
    | Except.error e => Except.error e
    | Except.ok tag =>
      let _dm := tag_to_member du tag
      assoc_loop du rest

/-- The member-processing loop of `racfaudit_run` (lines 589-610) as it
would run over the same tuple elements: each iteration reads
`member_model.clan_name` before any category update. -/
def process_tuple_loop (st : ClansOut) : List RunIterObj → Except String ClansOut
  | [] => Except.ok st
  | x :: rest =>
    match getattr_clan_name x with
    | Except.error e => Except.error e
    | Except.ok _ => process_tuple_loop st rest

/-- `racfaudit_run` (the audit `run` command): fetch
`member_models = await self.family_member_models(server)` (the pair, not
unpacked), run the association loop over it, and only then build
`clans_out` and run the member-processing loop over the same value. -/
def racfaudit_run_entry (api_result : Except Unit (List ClanModel)) (cache : Cache)
    (clan_tags : List String) (cs : List RACFClan) (du : List DiscordUser) :
    Except String ClansOut :=
  match family_member_models api_result cache clan_tags with
  | Except.error e => Except.error e
  | Except.ok member_models =>
    match assoc_loop du (run_tuple_elements member_models) with
    | Except.error e => Except.error e
    | Except.ok _ =>
      process_tuple_loop (init_clans_out cs) (run_tuple_elements member_models)

/-- The report reached from a starting state after processing a member
list: each category list is extended by exactly the members whose category
condition holds, in input order. -/
def filter_report (cs : List RACFClan) (server : Server) (du : List DiscordUser)
    (st : ClansOut) (ms : List AuditMember) : ClansOut :=
  { clan_names := st.clan_names,
    shared :=
      { elder_promotion_req := st.shared.elder_promotion_req
          ++ ms.filter (flag_elder_promotion_req server du),
        coleader_promotion_req := st.shared.coleader_promotion_req
          ++ ms.filter (flag_coleader_promotion_req server du),
        no_discord := st.shared.no_discord
          ++ ms.filter (flag_no_discord du),
        no_clan_role := st.shared.no_clan_role
          ++ ms.filter (flag_no_clan_role cs du) } }

/-- A cache directory with no cache files at all. -/
def empty_cache : Cache := fun _ => none

/-- The chat-server "Elder" role object. -/
def elderRole : Role := { name := "Elder", rid := 1 }

/-- The chat role associated with clan "Alpha". -/
def alphaRole : Role := { name := "AlphaRole", rid := 2 }

/-- The chat role associated with clan "Beta". -/
def betaRole : Role := { name := "BetaRole", rid := 3 }

/-- Scenario server: holds the "Elder" and "AlphaRole" roles. -/
def alpha_server : Server := { roles := [elderRole, alphaRole] }

/-- Scenario configuration: the single clan "Alpha" with tag `AAA` mapped
to the chat role "AlphaRole". -/
def alpha_conf : List ClanConf :=
  [{ name := "Alpha", tag := "AAA", role_name := "AlphaRole", membership_type := "family" }]

/-- Scenario clan registry resolved against the scenario server. -/
def alpha_clans : List RACFClan := clans alpha_conf alpha_server

/-- Scenario member X: in-game role `member`, tag `t1`. -/
def x_model : MemberModel :=
  { tag := "t1", name := "X", role := ClanRole.member, trophies := 0 }

/-- Scenario clan model: clan "Alpha" (tag `AAA`) with single member X. -/
def alpha_clan_model : ClanModel :=
  { tag := "AAA", name := "Alpha", members := [x_model] }

/-- Member X as seen by the audit loop, owned by clan "Alpha". -/
def x_member : AuditMember := { model := x_model, clan_name := "Alpha" }

/-- The chat identity linked to tag `t1`: holds the "Elder" role but not
"AlphaRole". -/
def alpha_dm : DiscordMember := { did := 100, roles := [elderRole] }

/-- Scenario association table: `t1` linked to the chat identity above. -/
def alpha_users : List DiscordUser := [{ user := alpha_dm, tag := "t1" }]

/-- The report the audit produces on the Alpha scenario. -/
def alpha_report : ClansOut :=
  { clan_names := ["Alpha"],
    shared := { elder_promotion_req := [x_member], coleader_promotion_req := [],
                no_discord := [], no_clan_role := [x_member] } }

/-- Two-clan scenario server: holds all three scenario roles. -/
def beta_server : Server := { roles := [elderRole, alphaRole, betaRole] }

/-- Two-clan scenario configuration: clans "Alpha" and "Beta". -/
def beta_conf : List ClanConf :=
  [{ name := "Alpha", tag := "AAA", role_name := "AlphaRole", membership_type := "family" },
   { name := "Beta", tag := "BBB", role_name := "BetaRole", membership_type := "family" }]

/-- Two-clan scenario clan registry. -/
def beta_clans : List RACFClan := clans beta_conf beta_server

/-- Member Y of clan "Alpha", with no linked chat identity. -/
def y_model : MemberModel :=
  { tag := "t2", name := "Y", role := ClanRole.member, trophies := 0 }

/-- Member Y as seen by the audit loop, owned by clan "Alpha". -/
def y_member : AuditMember := { model := y_model, clan_name := "Alpha" }

/-- The report the audit produces on the two-clan scenario with the single
member Y and an empty association table. -/
def beta_report : ClansOut :=
  { clan_names := ["Alpha", "Beta"],
    shared := { elder_promotion_req := [], coleader_promotion_req := [],
                no_discord := [y_member], no_clan_role := [] } }

theorem roleOfString_roleToString (r : ClanRole) : roleOfString (roleToString r) = r := by
  cases r <;> rfl

theorem member_of_dict_to_dict (m : MemberModel) : MemberModel.of_dict m.to_dict = m := by
  cases m with
  | mk t n r tr => cases r <;> rfl

theorem map_of_dict_to_dict (ms : List MemberModel) :
    (ms.map MemberModel.to_dict).map MemberModel.of_dict = ms := by
  induction ms with
  | nil => rfl
  | cons m rest ih => simp [member_of_dict_to_dict, ih]

theorem clan_of_dict_to_dict (c : ClanModel) : ClanModel.of_dict c.to_dict = c := by
  cases c with
  | mk t n ms =>
    have h : ClanModel.of_dict (ClanModel.to_dict { tag := t, name := n, members := ms })
        = { tag := t, name := n,
            members := (ms.map MemberModel.to_dict).map MemberModel.of_dict } := rfl
    rw [h, map_of_dict_to_dict]

theorem save_json_same (cache : Cache) (tag : String) (d : JValue) :
    save_json cache tag d tag = some d := by
  simp [save_json]

theorem save_json_other (cache : Cache) (tag t : String) (d : JValue) (h : t ≠ tag) :
    save_json cache tag d t = cache t := by
  simp [save_json, h]

theorem save_to_cache_not_mem (cms : List ClanModel) (t : String) :
    ∀ cache : Cache, t ∉ cms.map ClanModel.tag → save_to_cache cms cache t = cache t := by
  induction cms with
  | nil => intro cache _; rfl
  | cons c rest ih =>
    intro cache h
    simp only [List.map_cons, List.mem_cons, not_or] at h
    obtain ⟨h1, h2⟩ := h
    show save_to_cache rest (save_json cache c.tag c.to_dict) t = cache t
    rw [ih _ h2]
    exact save_json_other cache c.tag t c.to_dict h1

theorem save_to_cache_lookup (cms : List ClanModel) (c : ClanModel) :
    ∀ cache : Cache, c ∈ cms → (cms.map ClanModel.tag).Nodup →
      save_to_cache cms cache c.tag = some c.to_dict := by
  induction cms with
  | nil => intro cache hc _; cases hc
  | cons c0 rest ih =>
    intro cache hc hnd
    simp only [List.map_cons, List.nodup_cons] at hnd
    obtain ⟨hnotin, hnd2⟩ := hnd
    rcases List.mem_cons.mp hc with he | hmem
    · subst he
      show save_to_cache rest (save_json cache c.tag c.to_dict) c.tag = some c.to_dict
      rw [save_to_cache_not_mem rest c.tag _ hnotin]
      exact save_json_same cache c.tag c.to_dict
    · show save_to_cache rest (save_json cache c0.tag c0.to_dict) c.tag = some c.to_dict
      exact ih _ hmem hnd2

theorem load_from_cache_single (cache : Cache) (t : String) (d : JValue)
    (h : cache t = some d) :
    load_from_cache cache [t] = Except.ok [ClanModel.of_dict d] := by
  simp [load_from_cache, load_from_cache_loop, getmtime, load_json, h]

/-- C9: for every batch of fetched clan records with pairwise distinct tags
and every record in it, the cache write performed by `save_to_cache`
updates the entry for that record's tag to exactly the record's serialized
content, and a subsequent cache-fallback load of that tag yields a clan
record with identical field values (write-then-read round-trip). -/
theorem claim_C9 (cms : List ClanModel) (c : ClanModel) (cache : Cache)
    (hc : c ∈ cms) (hnd : (cms.map ClanModel.tag).Nodup) :
    save_to_cache cms cache c.tag = some c.to_dict
    ∧ load_from_cache (save_to_cache cms cache) [c.tag] = Except.ok [c] := by
  have h1 := save_to_cache_lookup cms c cache hc hnd
  refine ⟨h1, ?_⟩
  rw [load_from_cache_single _ _ _ h1, clan_of_dict_to_dict]

theorem claim_C9_witness :
    alpha_clan_model ∈ [alpha_clan_model]
    ∧ (List.map ClanModel.tag [alpha_clan_model]).Nodup
    ∧ save_to_cache [alpha_clan_model] empty_cache alpha_clan_model.tag
        = some alpha_clan_model.to_dict
    ∧ load_from_cache (save_to_cache [alpha_clan_model] empty_cache) [alpha_clan_model.tag]
        = Except.ok [alpha_clan_model] := by
  have h := claim_C9 [alpha_clan_model] alpha_clan_model empty_cache (by simp) (by simp)
  exact ⟨by simp, by simp, h.1, h.2⟩

/-- C8: identity resolution `tag_to_member` returns the chat identity of
the first association in table order whose game tag equals the queried
tag, and `none` when no association matches; with duplicate game tags this
is the first-encountered association, with no error raised. -/
theorem claim_C8 (ul : List DiscordUser) (tag : String) :
    tag_to_member ul tag
      = Option.map DiscordUser.user (List.find? (fun u => u.tag == tag) ul) := by
  induction ul with
  | nil => rfl
  | cons u rest ih =>
    by_cases h : u.tag = tag
    · simp [tag_to_member, h]
    · simp [tag_to_member, h, ih]

theorem load_from_cache_loop_error (cache : Cache) (t : String) :
    ∀ (tags : List String) (fp : Option Nat), t ∈ tags → cache t = none →
      ∃ e, load_from_cache_loop cache fp tags = Except.error e := by
  intro tags
  induction tags with
  | nil => intro fp h _; cases h
  | cons t0 rest ih =>
    intro fp hmem hnone
    rcases List.mem_cons.mp hmem with he | hmem2
    · subst he
      cases fp with
      | none =>
        exact ⟨"FileNotFoundError: " ++ t, by simp [load_from_cache_loop, getmtime, hnone]⟩
      | some tv =>
        exact ⟨"FileNotFoundError: " ++ t, by simp [load_from_cache_loop, load_json, hnone]⟩
    · cases h0 : cache t0 with
      | none =>
        cases fp with
        | none =>
          exact ⟨"FileNotFoundError: " ++ t0, by simp [load_from_cache_loop, getmtime, h0]⟩
        | some tv =>
          exact ⟨"FileNotFoundError: " ++ t0, by simp [load_from_cache_loop, load_json, h0]⟩
      | some d =>
        cases fp with
        | none =>
          obtain ⟨e, he⟩ := ih (some 0) hmem2 hnone
          exact ⟨e, by simp [load_from_cache_loop, getmtime, load_json, h0, he]⟩
        | some tv =>
          obtain ⟨e, he⟩ := ih (some tv) hmem2 hnone
          exact ⟨e, by simp [load_from_cache_loop, load_json, h0, he]⟩

/-- C3 (amended): when the API fetch fails and the fallback loads from the
cache, a requested clan tag with no cache entry is not silently omitted:
the cache load raises `FileNotFoundError` (from `os.path.getmtime` on the
first tag and `dataIO.load_json` on every tag), which propagates out of
`family_member_models`, so the call errors instead of returning a batch. -/
theorem claim_C3 (cache : Cache) (clan_tags : List String) (t : String)
    (ht : t ∈ clan_tags) (hmiss : cache t = none) :
    ∃ e, family_member_models (Except.error ()) cache clan_tags = Except.error e := by
  obtain ⟨e, he⟩ := load_from_cache_loop_error cache t clan_tags none ht hmiss
  exact ⟨e, by simp [family_member_models, load_from_cache, he]⟩

theorem claim_C3_witness :
    ("BBB" ∈ ["BBB"]) ∧ empty_cache "BBB" = none
    ∧ ∃ e, family_member_models (Except.error ()) empty_cache ["BBB"] = Except.error e := by
  refine ⟨by simp, rfl, ?_⟩
  exact claim_C3 empty_cache ["BBB"] "BBB" (by simp) rfl

theorem claim_C3_counterexample :
    family_member_models (Except.error ()) empty_cache ["BBB"]
      = Except.error "FileNotFoundError: BBB" := by
  rfl

/-- C2: a successful `family_member_models` call returns a batch that is
entirely live (source flag `false`, all records flattened from the API
result) or entirely cached (source flag `true`, all records flattened from
the cache load), never a mix. -/
theorem claim_C2 (api_result : Except Unit (List ClanModel)) (cache : Cache)
    (clan_tags : List String) (ms : List AuditMember) (b : Bool)
    (h : family_member_models api_result cache clan_tags = Except.ok (ms, b)) :
    (b = false ∧ ∃ cms, api_result = Except.ok cms ∧ ms = flatten_members cms)
    ∨ (b = true ∧ (∃ u : Unit, api_result = Except.error u)
        ∧ ∃ cms, load_from_cache cache clan_tags = Except.ok cms
            ∧ ms = flatten_members cms) := by
  cases api_result with
  | ok cms =>
    left
    simp [family_member_models] at h
    exact ⟨h.2, cms, rfl, h.1.symm⟩
  | error u =>
    right
    cases hl : load_from_cache cache clan_tags with
    | error e => simp [family_member_models, hl] at h
    | ok cms =>
      simp [family_member_models, hl] at h
      exact ⟨h.2, ⟨u, rfl⟩, cms, rfl, h.1.symm⟩

theorem claim_C2_witness :
    family_member_models (Except.ok [alpha_clan_model]) empty_cache ["AAA"]
      = Except.ok (flatten_members [alpha_clan_model], false)
    ∧ ((false = false
          ∧ ∃ cms, (Except.ok [alpha_clan_model] : Except Unit (List ClanModel))
              = Except.ok cms ∧ flatten_members [alpha_clan_model] = flatten_members cms)
        ∨ (false = true
            ∧ (∃ u : Unit, (Except.ok [alpha_clan_model] : Except Unit (List ClanModel))
                = Except.error u)
            ∧ ∃ cms, load_from_cache empty_cache ["AAA"] = Except.ok cms
                ∧ flatten_members [alpha_clan_model] = flatten_members cms)) := by
  refine ⟨rfl, ?_⟩
  exact claim_C2 (Except.ok [alpha_clan_model]) empty_cache ["AAA"]
    (flatten_members [alpha_clan_model]) false rfl

/-- C1: `racfaudit_run` binds the `(members, is_cache)` pair returned by
`family_member_models` without unpacking it and iterates over the pair, so
the first attribute access `member_model.tag` hits the member list itself
and raises `AttributeError`; the command therefore errors before any
member is recorded under any discrepancy category (it never returns a
report). -/
theorem claim_C1 (api_result : Except Unit (List ClanModel)) (cache : Cache)
    (clan_tags : List String) (cs : List RACFClan) (du : List DiscordUser) :
    (∀ st', racfaudit_run_entry api_result cache clan_tags cs du ≠ Except.ok st')
    ∧ (∀ pair, family_member_models api_result cache clan_tags = Except.ok pair →
        racfaudit_run_entry api_result cache clan_tags cs du
          = Except.error "AttributeError: list object has no attribute tag") := by
  constructor
  · intro st' hok
    cases hf : family_member_models api_result cache clan_tags with
    | error e => simp [racfaudit_run_entry, hf] at hok
    | ok pair =>
      simp [racfaudit_run_entry, hf, run_tuple_elements, assoc_loop, getattr_tag] at hok
  · intro pair hf
    simp [racfaudit_run_entry, hf, run_tuple_elements, assoc_loop, getattr_tag]

theorem claim_C1_witness :
    family_member_models (Except.ok [alpha_clan_model]) empty_cache ["AAA"]
      = Except.ok (flatten_members [alpha_clan_model], false)
    ∧ racfaudit_run_entry (Except.ok [alpha_clan_model]) empty_cache ["AAA"]
        alpha_clans alpha_users
      = Except.error "AttributeError: list object has no attribute tag" := by
  refine ⟨rfl, ?_⟩
  exact (claim_C1 (Except.ok [alpha_clan_model]) empty_cache ["AAA"]
    alpha_clans alpha_users).2 (flatten_members [alpha_clan_model], false) rfl

theorem update_clan_ok {st : ClansOut} {clan_name : String} {f : AuditField}
    {m : AuditMember} {st1 : ClansOut}
    (h : update_clan st clan_name f m = Except.ok st1) :
    st1 = { st with shared := st.shared.push f m } := by
  unfold update_clan at h
  split at h
  · injection h with h2
    exact h2.symm
  · exact Except.noConfusion h

theorem append_if_filter {α : Type} (l : List α) (p : α → Bool) (m : α) (rest : List α) :
    (l ++ if p m then [m] else []) ++ List.filter p rest
      = l ++ List.filter p (m :: rest) := by
  by_cases h : p m <;> simp [List.filter_cons, h]

theorem step_elder_ok {server : Server} {dm : DiscordMember} {st : ClansOut}
    {m : AuditMember} {st1 : ClansOut}
    (h : step_elder server dm st m = Except.ok st1) :
    st1 = { st with shared := { st.shared with elder_promotion_req :=
        st.shared.elder_promotion_req
          ++ (if !m.role_is_elder && member_has_role server dm "Elder" then [m] else []) } } := by
  unfold step_elder at h
  split at h
  next hcond =>
    rw [update_clan_ok h]
    simp [ClanOut.push, hcond]
  next hcond =>
    injection h with h2
    rw [← h2]
    simp [hcond]

theorem step_coleader_ok {server : Server} {dm : DiscordMember} {st : ClansOut}
    {m : AuditMember} {st1 : ClansOut}
    (h : step_coleader server dm st m = Except.ok st1) :
    st1 = { st with shared := { st.shared with coleader_promotion_req :=
        st.shared.coleader_promotion_req
          ++ (if !m.role_is_coleader && member_has_role server dm "Co-Leader" then [m] else []) } } := by
  unfold step_coleader at h
  split at h
  next hcond =>
    rw [update_clan_ok h]
    simp [ClanOut.push, hcond]
  next hcond =>
    injection h with h2
    rw [← h2]
    simp [hcond]

theorem step_clan_role_ok {cs : List RACFClan} {dm : DiscordMember} {st : ClansOut}
    {m : AuditMember} {st1 : ClansOut}
    (h : step_clan_role cs dm st m = Except.ok st1) :
    st1 = { st with shared := { st.shared with no_clan_role :=
        st.shared.no_clan_role
          ++ (match clan_name_to_role cs m.clan_name with
              | some clan_role =>
                if clan_role ∈ discord_clan_roles cs dm then [] else [m]
              | none => []) } } := by
  unfold step_clan_role at h
  split at h
  next hr =>
    injection h with h2
    rw [← h2]
    simp [hr]
  next clan_role hr =>
    split at h
    next hmem =>
      injection h with h2
      rw [← h2]
      simp [hr, hmem]
    next hmem =>
      rw [update_clan_ok h]
      simp [ClanOut.push, hr, hmem]

theorem audit_step_ok {cs : List RACFClan} {server : Server} {du : List DiscordUser}
    {st : ClansOut} {m : AuditMember} {st1 : ClansOut}
    (h : audit_step cs server du st m = Except.ok st1) :
    st1 = apply_flags cs server du st m := by
  unfold apply_flags flag_elder_promotion_req flag_coleader_promotion_req flag_no_discord
    flag_no_clan_role
  unfold audit_step at h
  cases htm : tag_to_member du m.tag <;> simp only [htm] at h ⊢
  case none =>
    rw [update_clan_ok h]
    simp [ClanOut.push]
  case some dm =>
    cases h1 : step_elder server dm st m with
    | error e => simp only [h1] at h; exact Except.noConfusion h
    | ok sta =>
      simp only [h1] at h
      cases h2 : step_coleader server dm sta m with
      | error e => simp only [h2] at h; exact Except.noConfusion h
      | ok stb =>
        simp only [h2] at h
        have e1 := step_elder_ok h1
        have e2 := step_coleader_ok h2
        have e3 := step_clan_role_ok h
        rw [e3, e2, e1]
        cases hr : clan_name_to_role cs m.clan_name with
        | none => simp [hr]
        | some clan_role =>
          by_cases hmem : clan_role ∈ discord_clan_roles cs dm <;> simp [hr, hmem]

theorem racfaudit_loop_ok {cs : List RACFClan} {server : Server} {du : List DiscordUser} :
    ∀ (ms : List AuditMember) (st st' : ClansOut),
      racfaudit_loop cs server du st ms = Except.ok st' →
      st' = filter_report cs server du st ms := by
  intro ms
  induction ms with
  | nil =>
    intro st st' h
    injection h with h2
    cases st with
    | mk names shared =>
      cases shared
      simp [← h2, filter_report]
  | cons m rest ih =>
    intro st st' h
    unfold racfaudit_loop at h
    cases hstep : audit_step cs server du st m with
    | error e => rw [hstep] at h; exact Except.noConfusion h
    | ok st1 =>
      rw [hstep] at h
      have h1 := ih st1 st' h
      rw [h1, audit_step_ok hstep]
      unfold filter_report apply_flags
      simp only [ClansOut.mk.injEq, ClanOut.mk.injEq]
      refine ⟨by trivial, append_if_filter _ _ _ _, append_if_filter _ _ _ _,
        append_if_filter _ _ _ _, append_if_filter _ _ _ _⟩

theorem audit_members_ok {cs : List RACFClan} {server : Server} {du : List DiscordUser}
    {ms : List AuditMember} {st' : ClansOut}
    (h : audit_members cs server du ms = Except.ok st') :
    st'.clan_names = cs.map (fun c => c.name)
    ∧ st'.shared.elder_promotion_req = ms.filter (flag_elder_promotion_req server du)
    ∧ st'.shared.coleader_promotion_req = ms.filter (flag_coleader_promotion_req server du)
    ∧ st'.shared.no_discord = ms.filter (flag_no_discord du)
    ∧ st'.shared.no_clan_role = ms.filter (flag_no_clan_role cs du) := by
  have h2 := racfaudit_loop_ok ms (init_clans_out cs) st' h
  rw [h2]
  simp [filter_report, init_clans_out]

/-- C7 scenario: clan "Alpha" (tag `AAA`) with single member X (in-game
role `member`, tag `t1`) whose linked chat identity holds "Elder" but not
"AlphaRole", with the registry mapping "Alpha" to "AlphaRole": the audit
reports X under `elder_promotion_req` and under `no_clan_role`, with
`no_discord` and `coleader_promotion_req` empty. -/
theorem claim_C7 :
    audit_members alpha_clans alpha_server alpha_users (flatten_members [alpha_clan_model])
      = Except.ok alpha_report
    ∧ x_member ∈ alpha_report.shared.elder_promotion_req
    ∧ x_member ∈ alpha_report.shared.no_clan_role
    ∧ alpha_report.shared.no_discord = []
    ∧ alpha_report.shared.coleader_promotion_req = [] := by
  refine ⟨rfl, by simp [alpha_report], by simp [alpha_report], rfl, rfl⟩

/-- C4 (evaluation at the failing input): with clans "Alpha" and "Beta"
configured and the single member Y of clan "Alpha" with no linked chat
identity, reading clan "Beta"'s report entry yields a category dict whose
`no_discord` list contains Y, a member of clan "Alpha" — every clan name
keys the same shared `clan_defaults` dict, so category lists are not
per-clan. -/
theorem claim_C4_eval :
    audit_members beta_clans beta_server [] [y_member] = Except.ok beta_report
    ∧ y_member.clan_name = "Alpha"
    ∧ ClansOut.get beta_report "Beta" = some beta_report.shared
    ∧ y_member ∈ beta_report.shared.no_discord := by
  refine ⟨rfl, rfl, rfl, by simp [beta_report]⟩

/-- C5: in a completed audit run, a processed member with a resolved chat
identity whose in-game role is not elder and whose identity holds the chat
"Elder" role is recorded under `elder_promotion_req`; a member whose
in-game role is elder is never recorded there (in particular not when the
identity also holds "Elder"). -/
theorem claim_C5 {cs : List RACFClan} {server : Server} {du : List DiscordUser}
    {ms : List AuditMember} {st' : ClansOut} {m : AuditMember} {dm : DiscordMember}
    (hrun : audit_members cs server du ms = Except.ok st')
    (hm : m ∈ ms)
    (hdm : tag_to_member du m.tag = some dm) :
    (m.role_is_elder = false → member_has_role server dm "Elder" = true →
        m ∈ st'.shared.elder_promotion_req)
    ∧ (m.role_is_elder = true → member_has_role server dm "Elder" = true →
        m ∉ st'.shared.elder_promotion_req) := by
  obtain ⟨-, hE, -, -, -⟩ := audit_members_ok hrun
  constructor
  · intro h1 h2
    rw [hE]
    exact List.mem_filter.mpr ⟨hm, by simp [flag_elder_promotion_req, hdm, h1, h2]⟩
  · intro h1 _ hmem
    rw [hE] at hmem
    have h3 := (List.mem_filter.mp hmem).2
    simp [flag_elder_promotion_req, hdm, h1] at h3

theorem claim_C5_witness :
    audit_members alpha_clans alpha_server alpha_users (flatten_members [alpha_clan_model])
      = Except.ok alpha_report
    ∧ x_member ∈ flatten_members [alpha_clan_model]
    ∧ tag_to_member alpha_users x_member.tag = some alpha_dm
    ∧ x_member.role_is_elder = false
    ∧ member_has_role alpha_server alpha_dm "Elder" = true
    ∧ x_member ∈ alpha_report.shared.elder_promotion_req := by
  have h := @claim_C5 alpha_clans alpha_server alpha_users
    (flatten_members [alpha_clan_model]) alpha_report x_member alpha_dm
    rfl (by decide) rfl
  exact ⟨rfl, by decide, rfl, rfl, rfl, h.1 rfl rfl⟩

/-- C6: in a completed audit run, a processed member with no resolved chat
identity is recorded under `no_discord` and under no other category: it
never appears in `elder_promotion_req`, `coleader_promotion_req` or
`no_clan_role`, because those checks only run when an identity exists. -/
theorem claim_C6 {cs : List RACFClan} {server : Server} {du : List DiscordUser}
    {ms : List AuditMember} {st' : ClansOut} {m : AuditMember}
    (hrun : audit_members cs server du ms = Except.ok st')
    (hm : m ∈ ms)
    (hdm : tag_to_member du m.tag = none) :
    m ∈ st'.shared.no_discord
    ∧ m ∉ st'.shared.elder_promotion_req
    ∧ m ∉ st'.shared.coleader_promotion_req
    ∧ m ∉ st'.shared.no_clan_role := by
  obtain ⟨-, hE, hC, hD, hR⟩ := audit_members_ok hrun
  refine ⟨?_, ?_, ?_, ?_⟩
  · rw [hD]
    exact List.mem_filter.mpr ⟨hm, by simp [flag_no_discord, hdm]⟩
  · intro hmem
    rw [hE] at hmem
    have h3 := (List.mem_filter.mp hmem).2
    simp [flag_elder_promotion_req, hdm] at h3
  · intro hmem
    rw [hC] at hmem
    have h3 := (List.mem_filter.mp hmem).2
    simp [flag_coleader_promotion_req, hdm] at h3
  · intro hmem
    rw [hR] at hmem
    have h3 := (List.mem_filter.mp hmem).2
    simp [flag_no_clan_role, hdm] at h3

theorem claim_C6_witness :
    audit_members beta_clans beta_server [] [y_member] = Except.ok beta_report
    ∧ y_member ∈ ([y_member] : List AuditMember)
    ∧ tag_to_member [] y_member.tag = none
    ∧ y_member ∈ beta_report.shared.no_discord
    ∧ y_member ∉ beta_report.shared.elder_promotion_req := by
  have h := @claim_C6 beta_clans beta_server [] [y_member] beta_report y_member
    rfl (by decide) rfl
  exact ⟨rfl, by decide, rfl, h.1, h.2.1⟩

/-- C10: in a completed audit run over the flattened member list (clan
order, then member order as fetched), every category list of the report is
an order-preserving sublist of that input list: members appear in input
iteration order and no category list is re-sorted. -/
theorem claim_C10 {cs : List RACFClan} {server : Server} {du : List DiscordUser}
    {clan_models : List ClanModel} {st' : ClansOut}
    (hrun : audit_members cs server du (flatten_members clan_models) = Except.ok st') :
    List.Sublist st'.shared.elder_promotion_req (flatten_members clan_models)
    ∧ List.Sublist st'.shared.coleader_promotion_req (flatten_members clan_models)
    ∧ List.Sublist st'.shared.no_discord (flatten_members clan_models)
    ∧ List.Sublist st'.shared.no_clan_role (flatten_members clan_models) := by
  obtain ⟨-, hE, hC, hD, hR⟩ := audit_members_ok hrun
  rw [hE, hC, hD, hR]
  exact ⟨List.filter_sublist _, List.filter_sublist _,
    List.filter_sublist _, List.filter_sublist _⟩

theorem claim_C10_witness :
    audit_members alpha_clans alpha_server alpha_users (flatten_members [alpha_clan_model])
      = Except.ok alpha_report
    ∧ List.Sublist alpha_report.shared.elder_promotion_req (flatten_members [alpha_clan_model])
    ∧ List.Sublist alpha_report.shared.no_clan_role (flatten_members [alpha_clan_model]) := by
  have h := @claim_C10 alpha_clans alpha_server alpha_users [alpha_clan_model] alpha_report rfl
  exact ⟨rfl, h.1, h.2.2.2⟩

end RacfAudit
